import Mathlib

/-!
Verification of the AiTran document-to-lecture server against its
natural-language specification.

The development shallowly embeds the request-processing code of the three
handler variants found in the repository:

* `processAssistants` — the assistant/thread polling variant (server.js, first
  iteration): upload file, create assistant + thread, poll the run status,
  fetch the script, synthesize speech, clean up.
* `processResponses` — the single-call multimodal Responses-API variant
  (server.js, second iteration): upload file, one `responses.create` call whose
  output tree is walked by `extractResponsePayload` for text and audio.
* `processTts` — the Responses + separate TTS variant (the unnamed server
  iteration): upload file, `responses.create` for the script text, then a
  separate `audio.speech.create` call.

It also embeds the local text-extraction helper `extractText`
(utils/textExtractor.js), the `cleanupLocal` closure shared by all handler
variants, and the bounded run-status polling loop.

The filesystem is modelled as an association list keyed by (directory, name)
pairs, mirroring the code's `path.join(uploadsDir, …)` / `path.join(__dirname,
'downloads', …)` construction.  External services (OpenAI file upload,
response creation, speech synthesis) are modelled as request-scoped world
records carrying their results; fallible calls return `Except`.
-/

/-! ## Filesystem model -/

/-- File path as a (directory, filename) pair: the code builds every path it
touches as `path.join(dir, name)` with `dir` one of `uploads` / `downloads`. -/
abbrev FPath := String × String

/-- Filesystem: association list from paths to byte contents.  Later entries
are shadowed by earlier ones, and `writeFileFS` removes stale entries. -/
abbrev FS := List (FPath × List Nat)

/-- Model of `fs.existsSync`. -/
def existsSync (fs : FS) (p : FPath) : Bool :=
  match fs with
  | [] => false
  | e :: rest => if e.1 = p then true else existsSync rest p

/-- Model of `fs.unlinkSync`: removes every entry stored at the path. -/
def unlinkSync (fs : FS) (p : FPath) : FS :=
  match fs with
  | [] => []
  | e :: rest => if e.1 = p then unlinkSync rest p else e :: unlinkSync rest p

/-- Model of `fs.promises.writeFile`: create or overwrite. -/
def writeFileFS (fs : FS) (p : FPath) (b : List Nat) : FS :=
  (p, b) :: unlinkSync fs p

/-- Reading a file back (used to state what a request persisted). -/
def readFileFS (fs : FS) (p : FPath) : Option (List Nat) :=
  match fs with
  | [] => none
  | e :: rest => if e.1 = p then some e.2 else readFileFS rest p

/-- Model of the `cleanupLocal` closure of every handler variant:

    if (fs.existsSync(filePath)) fs.unlinkSync(filePath)

wrapped in a try/catch whose catch only logs.  In this model `unlinkSync`
cannot fail, so the function is total — mirroring the fact that the JS
closure never lets an exception escape. -/
def cleanupLocal (fs : FS) (p : FPath) : FS :=
  if existsSync fs p then unlinkSync fs p else fs

/-! ## Response-output tree and `extractResponsePayload` (server.js, Responses variant) -/

/-- Value tree fed to `extractResponsePayload`: a node of the Responses API
output is `null`-ish, an array, or an object with optional `type`, `text`,
`audio.data` and `content` fields.  `audioData` models `node.audio?.data`. -/
inductive JNode : Type where
  | null : JNode
  | arr : List JNode → JNode
  | obj : (ty : Option String) → (text : Option String) →
      (audioData : Option String) → (content : Option JNode) → JNode

/-- JavaScript string truthiness: a present, non-empty string. -/
def jstr (o : Option String) : Option String :=
  match o with
  | some s => if s = "" then none else some s
  | none => none

/-- One object node's contribution to the (script, audio) accumulator — the
if/else-if chain in the body of `recurse`:

    if (node.type === 'output_text' && node.text) script += node.text;
    else if (node.type === 'text' && node.text) script += node.text;
    else if ((node.type === 'output_audio' || node.type === 'audio')
             && node.audio?.data) audioBase64 = node.audio.data;
-/
def stepObj (ty tx au : Option String) (acc : String × Option String) :
    String × Option String :=
  if (ty = some ("output_text") ∨ ty = some ("text")) ∧ (jstr tx).isSome then
    (acc.1 ++ (jstr tx).getD (""), acc.2)
  else if (ty = some ("output_audio") ∨ ty = some ("audio")) ∧ (jstr au).isSome then
    (acc.1, jstr au)
  else acc

mutual

/-- The inner `recurse` closure of `extractResponsePayload`: walks a node,
threading the (script, audioBase64) accumulator; after the type dispatch it
descends into a present `content` field. -/
def recurse : JNode → String × Option String → String × Option String
  | .null, acc => acc
  | .arr xs, acc => recurseList xs acc
  | .obj ty tx au none, acc => stepObj ty tx au acc
  | .obj ty tx au (some n), acc => recurse n (stepObj ty tx au acc)

/-- The `node.forEach(recurse)` arm of `recurse` for arrays. -/
def recurseList : List JNode → String × Option String → String × Option String
  | [], acc => acc
  | x :: xs, acc => recurseList xs (recurse x acc)

end

/-- Model of `String.prototype.trim`: drop whitespace from both ends. -/
def strTrim (s : String) : String :=
  String.mk (((s.data.dropWhile Char.isWhitespace).reverse.dropWhile
    Char.isWhitespace).reverse)

/-- Model of `extractResponsePayload(outputs = [])`: runs the recursion from
the empty accumulator and trims the script.  The missing-argument default is
the empty list. -/
def extractResponsePayload (outputs : List JNode) : String × Option String :=
  let r := recurseList outputs ("", none)
  (strTrim r.1, r.2)

/-! Specification-side definitions for the claim about
`extractResponsePayload`: the spec describes the script as the trimmed
concatenation, in depth-first order, of the `text` of every node of type
`output_text` or `text`, and the audio as the `audio.data` of the last
audio-typed node visited that has such data (a present, non-empty data
string, matching the JS truthiness test the code applies). -/

/-- Right-biased-to-left option choice: `optOr a b` is `a` when present,
otherwise `b`. -/
def optOr (a b : Option String) : Option String :=
  match a with
  | some x => some x
  | none => b

/-- Last element of a list, if any. -/
def lastOf : List String → Option String
  | [] => none
  | a :: rest => optOr (lastOf rest) (some a)

/-- Concatenation of a list of strings in order. -/
def concatAll : List String → String
  | [] => ""
  | s :: rest => s ++ concatAll rest

mutual

/-- Spec-side reading: the `text` of every node of type `output_text` or
`text`, in depth-first traversal order (arrays and `content` fields). -/
def specTexts : JNode → List String
  | .null => []
  | .arr xs => specTextsList xs
  | .obj ty tx _ none =>
      if ty = some ("output_text") ∨ ty = some ("text") then tx.toList else []
  | .obj ty tx _ (some n) =>
      (if ty = some ("output_text") ∨ ty = some ("text") then tx.toList else [])
        ++ specTexts n

def specTextsList : List JNode → List String
  | [] => []
  | x :: xs => specTexts x ++ specTextsList xs

end

mutual

/-- Spec-side reading: the `audio.data` of every node of type `output_audio`
or `audio` that has such data, in depth-first traversal order. -/
def specAudios : JNode → List String
  | .null => []
  | .arr xs => specAudiosList xs
  | .obj ty _ au none =>
      if ty = some ("output_audio") ∨ ty = some ("audio") then (jstr au).toList else []
  | .obj ty _ au (some n) =>
      (if ty = some ("output_audio") ∨ ty = some ("audio") then (jstr au).toList else [])
        ++ specAudios n

def specAudiosList : List JNode → List String
  | [] => []
  | x :: xs => specAudios x ++ specAudiosList xs

end

/-! ## Local text extraction (utils/textExtractor.js) -/

/-- Index of the last `.` in a character list, scanning left to right and
remembering the most recent hit. -/
def lastDotIdxAux : List Char → Nat → Option Nat → Option Nat
  | [], _, acc => acc
  | c :: rest, i, acc => lastDotIdxAux rest (i + 1) (if c = '.' then some i else acc)

/-- Index of the last `.` in a character list, if any. -/
def lastDotIdx (cs : List Char) : Option Nat :=
  lastDotIdxAux cs 0 none

/-- Model of Node's `path.extname` for POSIX paths: the substring of the last
path segment (the characters after the last `/`) from its last `.` to the
end, and the empty string when the segment has no `.` or only a leading
one. -/
def extname (p : String) : String :=
  let base := (p.data.reverse.takeWhile (fun c => !(c == '/'))).reverse
  match lastDotIdx base with
  | none => ""
  | some i => if 0 < i then String.mk (base.drop i) else ("")

/-- ASCII lowercasing, modelling `String.prototype.toLowerCase` on the
extension strings the code compares against. -/
def toLowerString (s : String) : String :=
  String.mk (s.data.map Char.toLower)

/-- The dispatch key of `extractText`:
`const ext = path.extname(filePath).toLowerCase();`. -/
def extOf (p : String) : String :=
  toLowerString (extname p)

/-- The format-specific third-party decoders `extractText` delegates to, each
taking the file path and producing text or failing.  `xlsxRead` returns the
workbook's sheet texts (`sheet_to_txt` per sheet name, in order); the `.xlsx`
branch of `extractText` itself appends the newline after each sheet. -/
structure Decoders where
  pdf : String → Except String String
  docx : String → Except String String
  xlsxRead : String → Except String (List String)
  office : String → Except String String
  readTxtFile : String → Except String String

/-- Which decoder a call to `extractText` invoked, recorded as an invocation
trace (the JS function calls at most one decoder per call). -/
inductive DecoderKind : Type where
  | pdf : DecoderKind
  | docx : DecoderKind
  | xlsx : DecoderKind
  | office : DecoderKind
  | txt : DecoderKind
deriving DecidableEq, Repr

/-- The `.xlsx` / `.xls` branch body: concatenate `sheet_to_txt(sheet) + '\n'`
over the workbook's sheets. -/
def xlsxText (sheets : List String) : String :=
  concatAll (sheets.map (fun s => s ++ "\n"))

/-- Model of `extractText(filePath)` (utils/textExtractor.js), instrumented
with the list of decoders invoked.  The surrounding try/catch logs and
re-throws, so every error — decoder failures and the unsupported-type error
alike — propagates unchanged. -/
def extractText (d : Decoders) (filePath : String) :
    Except String String × List DecoderKind :=
  if extOf filePath = ".pdf" then (d.pdf filePath, [DecoderKind.pdf])
  else if extOf filePath = ".docx" then (d.docx filePath, [DecoderKind.docx])
  else if extOf filePath = ".xlsx" ∨ extOf filePath = ".xls" then
    (match d.xlsxRead filePath with
     | Except.error e => Except.error e
     | Except.ok sheets => Except.ok (xlsxText sheets), [DecoderKind.xlsx])
  else if extOf filePath = ".pptx" ∨ extOf filePath = ".ppt" then
    (d.office filePath, [DecoderKind.office])
  else if extOf filePath = ".txt" then (d.readTxtFile filePath, [DecoderKind.txt])
  else (Except.error ("Unsupported file type: " ++ extOf filePath), [])

/-- One of the five decoders, on this path, produced exactly this text (for
the xlsx branch, the sheet texts each followed by a newline). -/
def decoderOkText (d : Decoders) (p s : String) : Prop :=
  d.pdf p = Except.ok s ∨ d.docx p = Except.ok s ∨
    (∃ sheets, d.xlsxRead p = Except.ok sheets ∧ s = xlsxText sheets) ∨
    d.office p = Except.ok s ∨ d.readTxtFile p = Except.ok s

/-- One of the five decoders, on this path, raised exactly this error. -/
def decoderRaisedError (d : Decoders) (p e : String) : Prop :=
  d.pdf p = Except.error e ∨ d.docx p = Except.error e ∨
    d.xlsxRead p = Except.error e ∨
    d.office p = Except.error e ∨ d.readTxtFile p = Except.error e

/-- The extensions `extractText` dispatches to a decoder. -/
def supportedExts : List String :=
  [".pdf", ".docx", ".xlsx", ".xls", ".pptx", ".ppt", ".txt"]

/-! ## Upload receiver size limit (multer) -/

/-- The `limits: { fileSize: 10 * 1024 * 1024 }` constant of the multer
setup, in bytes. -/
def multerFileSizeLimitBytes : Nat := 10 * 1024 * 1024

/-- Modelled from multer's documented `limits.fileSize` contract: an upload
whose byte size exceeds the limit is rejected before storage. -/
def multerAccepts (sz : Nat) : Bool := sz ≤ multerFileSizeLimitBytes

/-! ## Run-status polling loop (server.js, assistants variant) -/

/-- `const maxAttempts = 120;` — the bounded retry count of the run-status
polling loop. -/
def maxAttempts : Nat := 120

/-- The fixed polling interval: `setTimeout(resolve, 1000)`. -/
def pollIntervalMs : Nat := 1000

/-- The run statuses the loop treats as hard failures. -/
def terminalStatuses : List String := ["failed", "cancelled", "expired"]

/-- The timeout error message thrown when the attempt budget is exhausted. -/
def timeoutMsg : String := "Assistant run timed out after 2 minutes"

/-- The terminal-status error message:
`Assistant run ${status}: ${runStatus.last_error?.message || 'Unknown error'}`. -/
def runErrMsg (st : String) (lastError : Option String) : String :=
  "Assistant run " ++ st ++ ": " ++ lastError.getD ("Unknown error")

/-- Body of the polling loop.  `runs k` is the status and `last_error`
message returned by the k-th `runs.retrieve` call (`runs 0` is the retrieve
before the loop).  `i` is both the retrieve index and the current value of
`attempts`; `fuel` maintains `i + fuel = maxAttempts`.  The loop

    while (status !== 'completed' && attempts < maxAttempts) {
      if (terminal) throw ...; sleep(1000); retrieve; attempts++; }
    if (attempts >= maxAttempts) throw timeout;

returns the final attempt count on success; the second component counts the
milliseconds slept. -/
def pollAux (runs : Nat → String × Option String) :
    Nat → Nat → Except String Nat × Nat
  | i, fuel =>
    if (runs i).1 = "completed" ∧ i < maxAttempts then (Except.ok i, 0)
    else
      match fuel with
      | 0 => (Except.error timeoutMsg, 0)
      | fuel' + 1 =>
        if (runs i).1 ∈ terminalStatuses then
          (Except.error (runErrMsg (runs i).1 (runs i).2), 0)
        else
          let r := pollAux runs (i + 1) fuel'
          (r.1, r.2 + pollIntervalMs)

/-- The whole polling phase, started at the initial retrieve with the full
attempt budget. -/
def pollRun (runs : Nat → String × Option String) : Except String Nat × Nat :=
  pollAux runs 0 maxAttempts

/-! ## The three `/api/process` handler variants -/

/-- JSON response body: `{ success: true, downloadUrl, script }` on success,
`{ error: <message> }` on failure. -/
inductive Body : Type where
  | ok : (downloadUrl : String) → (script : String) → Body
  | err : (msg : String) → Body
deriving DecidableEq, Repr

/-- Everything a request leaves behind: HTTP status, JSON body, resulting
filesystem, and which remote resources were created and had deletion
attempted (deletion attempts are best-effort; their success or failure is
logged and ignored by the code, hence not recorded). -/
structure Outcome : Type where
  status : Nat
  body : Body
  fs : FS
  fileCreated : Bool
  fileDelAttempted : Bool
  assistantCreated : Bool
  assistantDelAttempted : Bool
  threadCreated : Bool
  threadDelAttempted : Bool
deriving DecidableEq, Repr

/-- `res.status(500).json({ error: error.message || 'Internal Server Error' })`:
an empty message falls back to the generic one. -/
def orInternalError (e : String) : String :=
  if e = "" then ("Internal Server Error") else e

/-- External-call results for the Responses-API (single multimodal call)
variant of the handler.  `decode` models `Buffer.from(s, 'base64')`;
`filesDelOk` is the outcome of the fire-and-forget remote file deletion,
which the code ignores (`.catch(() => {})`). -/
structure RWorld : Type where
  filesCreate : Except String String
  responsesCreate : Except String (List JNode)
  decode : String → List Nat
  filesDelOk : Bool

/-- The Responses-API variant of `app.post('/api/process')` (server.js,
second iteration).  `reqFile` is the stored temp file's name under
`uploads/` (`req.file` is absent when `none`); `uuid` is the generated
output name stem. -/
def processResponses (w : RWorld) (reqFile : Option String) (uuid : String)
    (fs : FS) : Outcome :=
  match reqFile with
  | none => ⟨400, Body.err ("No file uploaded"), fs, false, false, false, false, false, false⟩
  | some tempName =>
    let filePath : FPath := ("uploads", tempName)
    let outputFilename := uuid ++ ".mp3"
    let outputPath : FPath := ("downloads", outputFilename)
    if existsSync fs filePath = false then
      ⟨500, Body.err (orInternalError ("Uploaded file not found at: uploads/" ++ tempName)),
        cleanupLocal fs filePath, false, false, false, false, false, false⟩
    else
      match w.filesCreate with
      | Except.error e =>
        ⟨500, Body.err (orInternalError e), cleanupLocal fs filePath,
          false, false, false, false, false, false⟩
      | Except.ok _fid =>
        match w.responsesCreate with
        | Except.error e =>
          ⟨500, Body.err (orInternalError e), cleanupLocal fs filePath,
            true, true, false, false, false, false⟩
        | Except.ok outs =>
          let p := extractResponsePayload outs
          if p.1 = "" then
            ⟨500, Body.err (orInternalError ("OpenAI did not return a Hebrew script.")),
              cleanupLocal fs filePath, true, true, false, false, false, false⟩
          else
            match p.2 with
            | none =>
              ⟨500, Body.err (orInternalError ("OpenAI did not return audio data.")),
                cleanupLocal fs filePath, true, true, false, false, false, false⟩
            | some a64 =>
              if a64 = "" then
                ⟨500, Body.err (orInternalError ("OpenAI did not return audio data.")),
                  cleanupLocal fs filePath, true, true, false, false, false, false⟩
              else
                let fs1 := writeFileFS fs outputPath (w.decode a64)
                let fs2 := cleanupLocal fs1 filePath
                ⟨200, Body.ok ("/downloads/" ++ outputFilename) p.1, fs2,
                  true, true, false, false, false, false⟩

/-- External-call results for the assistants + polling variant.  `runs` feeds
the polling loop; `messagesScript` is the value of
`messages.data[0].content[0].text.value` (or the exception raised while
reading it); the three `…DelOk` fields are the outcomes of the best-effort
deletions, ignored by the code. -/
structure AWorld : Type where
  filesCreate : Except String String
  assistantsCreate : Except String String
  threadsCreate : Except String String
  messagesCreate : Except String Unit
  runsCreate : Except String Unit
  runs : Nat → String × Option String
  messagesScript : Except String String
  audioSpeech : Except String (List Nat)
  assistantsDelOk : Bool
  threadsDelOk : Bool
  filesDelOk : Bool

/-- The assistants + thread + run-polling variant of
`app.post('/api/process')` (server.js, first iteration).  The inner catch
deletes whatever of assistant/thread was created, the outer catch deletes the
local temp file and the remote file; the success flow deletes assistant and
thread before TTS, then the temp and remote files after persisting audio. -/
def processAssistants (w : AWorld) (reqFile : Option String) (uuid : String)
    (fs : FS) : Outcome :=
  match reqFile with
  | none => ⟨400, Body.err ("No file uploaded"), fs, false, false, false, false, false, false⟩
  | some tempName =>
    let filePath : FPath := ("uploads", tempName)
    let outputFilename := uuid ++ ".mp3"
    let outputPath : FPath := ("downloads", outputFilename)
    if existsSync fs filePath = false then
      ⟨500, Body.err (orInternalError ("Uploaded file not found at: uploads/" ++ tempName)),
        cleanupLocal fs filePath, false, false, false, false, false, false⟩
    else
      match w.filesCreate with
      | Except.error e =>
        ⟨500, Body.err (orInternalError e), cleanupLocal fs filePath,
          false, false, false, false, false, false⟩
      | Except.ok _fid =>
        match w.assistantsCreate with
        | Except.error e =>
          ⟨500, Body.err (orInternalError e), cleanupLocal fs filePath,
            true, true, false, false, false, false⟩
        | Except.ok _aid =>
          match w.threadsCreate with
          | Except.error e =>
            ⟨500, Body.err (orInternalError e), cleanupLocal fs filePath,
              true, true, true, true, false, false⟩
          | Except.ok _tid =>
            match w.messagesCreate with
            | Except.error e =>
              ⟨500, Body.err (orInternalError e), cleanupLocal fs filePath,
                true, true, true, true, true, true⟩
            | Except.ok _ =>
              match w.runsCreate with
              | Except.error e =>
                ⟨500, Body.err (orInternalError e), cleanupLocal fs filePath,
                  true, true, true, true, true, true⟩
              | Except.ok _ =>
                match (pollRun w.runs).1 with
                | Except.error e =>
                  ⟨500, Body.err (orInternalError e), cleanupLocal fs filePath,
                    true, true, true, true, true, true⟩
                | Except.ok _ =>
                  match w.messagesScript with
                  | Except.error e =>
                    ⟨500, Body.err (orInternalError e), cleanupLocal fs filePath,
                      true, true, true, true, true, true⟩
                  | Except.ok script =>
                    if script = "" then
                      ⟨500, Body.err (orInternalError ("OpenAI did not return a Hebrew script.")),
                        cleanupLocal fs filePath, true, true, true, true, true, true⟩
                    else
                      match w.audioSpeech with
                      | Except.error e =>
                        ⟨500, Body.err (orInternalError e), cleanupLocal fs filePath,
                          true, true, true, true, true, true⟩
                      | Except.ok buffer =>
                        let fs1 := writeFileFS fs outputPath buffer
                        let fs2 := cleanupLocal fs1 filePath
                        ⟨200, Body.ok ("/downloads/" ++ outputFilename) script, fs2,
                          true, true, true, true, true, true⟩

/-- External-call results for the Responses + separate-TTS variant.
`responsesOutputText` is the `response.output_text` helper property, absent
or empty when the model returned no usable script. -/
structure TWorld : Type where
  filesCreate : Except String String
  responsesOutputText : Except String (Option String)
  audioSpeech : Except String (List Nat)

/-- The Responses + separate-TTS variant of `app.post('/api/process')` (the
unnamed server iteration).  Note that this variant never deletes the remote
uploaded file: the `openai.files.del` call is commented out in the source, on
both the success and the failure path. -/
def processTts (w : TWorld) (reqFile : Option String) (uuid : String)
    (fs : FS) : Outcome :=
  match reqFile with
  | none => ⟨400, Body.err ("No file uploaded"), fs, false, false, false, false, false, false⟩
  | some tempName =>
    let filePath : FPath := ("uploads", tempName)
    let outputFilename := uuid ++ ".mp3"
    let outputPath : FPath := ("downloads", outputFilename)
    if existsSync fs filePath = false then
      ⟨500, Body.err (orInternalError ("Uploaded file not found at: uploads/" ++ tempName)),
        cleanupLocal fs filePath, false, false, false, false, false, false⟩
    else
      match w.filesCreate with
      | Except.error e =>
        ⟨500, Body.err (orInternalError e), cleanupLocal fs filePath,
          false, false, false, false, false, false⟩
      | Except.ok _fid =>
        match w.responsesOutputText with
        | Except.error e =>
          ⟨500, Body.err (orInternalError e), cleanupLocal fs filePath,
            true, false, false, false, false, false⟩
        | Except.ok scriptOpt =>
          match scriptOpt with
          | none =>
            ⟨500, Body.err (orInternalError ("OpenAI did not return a script from Responses API.")),
              cleanupLocal fs filePath, true, false, false, false, false, false⟩
          | some script =>
            if script = "" then
              ⟨500, Body.err (orInternalError ("OpenAI did not return a script from Responses API.")),
                cleanupLocal fs filePath, true, false, false, false, false, false⟩
            else
              match w.audioSpeech with
              | Except.error e =>
                ⟨500, Body.err (orInternalError e), cleanupLocal fs filePath,
                  true, false, false, false, false, false⟩
              | Except.ok buffer =>
                let fs1 := writeFileFS fs outputPath buffer
                let fs2 := cleanupLocal fs1 filePath
                ⟨200, Body.ok ("/downloads/" ++ outputFilename) script, fs2,
                  true, false, false, false, false, false⟩

/-! ## Concrete example inputs used to instantiate the theorems below -/

/-- Filesystem holding exactly one stored temp upload, `uploads/doc.pdf`. -/
def fsOne : FS := [((("uploads"), ("doc.pdf")), [1, 2, 3])]

/-- Responses-API output carrying a Hebrew script part and an audio part. -/
def outsHappy : List JNode :=
  [JNode.obj (some ("output_text")) (some ("שלום עולם")) none none,
   JNode.obj (some ("output_audio")) none (some ("QUJD")) none]

/-- Responses-variant world whose calls all succeed. -/
def rWorldHappy : RWorld :=
  ⟨Except.ok ("file-id"), Except.ok outsHappy, fun _ => [7, 7, 7], true⟩

/-- Responses-variant world whose generation call returns an output with no
usable text or audio parts. -/
def rWorldEmptyScript : RWorld :=
  ⟨Except.ok ("file-id"), Except.ok [], fun _ => [], true⟩

/-- Assistants-variant world whose calls all succeed and whose run completes
on the first retrieve. -/
def aWorldOk : AWorld :=
  ⟨Except.ok ("file-id"), Except.ok ("asst"), Except.ok ("thread"),
   Except.ok (), Except.ok (), fun _ => (("completed"), none),
   Except.ok ("script"), Except.ok [9], true, true, true⟩

/-- Responses+TTS-variant world whose calls all succeed: the remote file is
created and the request reaches the success response. -/
def tWorldLeak : TWorld :=
  ⟨Except.ok ("file-id"), Except.ok (some ("script")), Except.ok [9]⟩

/-- Responses+TTS-variant world whose generation call yields no
`output_text`. -/
def tWorldEmptyScript : TWorld :=
  ⟨Except.ok ("file-id"), Except.ok none, Except.ok [9]⟩

/-- Decoder stubs that all succeed with fixed texts. -/
def dStub : Decoders :=
  ⟨fun _ => Except.ok ("P"), fun _ => Except.ok ("D"), fun _ => Except.ok [("S")],
   fun _ => Except.ok ("O"), fun _ => Except.ok ("T")⟩

/-- Decoder stubs whose plain-text reader succeeds with the empty string. -/
def dEmptyTxt : Decoders :=
  ⟨fun _ => Except.error ("pdf failed"), fun _ => Except.error ("docx failed"),
   fun _ => Except.error ("xlsx failed"), fun _ => Except.error ("office failed"),
   fun _ => Except.ok ("")⟩

/-- Run-status sequence that never leaves `in_progress`. -/
def runsStuck : Nat → String × Option String := fun _ => (("in_progress"), none)

/-- Run-status sequence that reports `failed` from the first retrieve on. -/
def runsFailed : Nat → String × Option String := fun _ => (("failed"), none)

theorem existsSync_unlinkSync (fs : FS) (p : FPath) :
    existsSync (unlinkSync fs p) p = false := by
  induction fs with
  | nil => rfl
  | cons e rest ih =>
    by_cases h : e.1 = p
    · simp [unlinkSync, h, ih]
    · simp [unlinkSync, existsSync, h, ih]

theorem existsSync_cleanupLocal (fs : FS) (p : FPath) :
    existsSync (cleanupLocal fs p) p = false := by
  unfold cleanupLocal
  by_cases h : existsSync fs p
  · simp [h, existsSync_unlinkSync]
  · simp [h]

theorem readFileFS_unlinkSync_ne (fs : FS) (p q : FPath) (h : q ≠ p) :
    readFileFS (unlinkSync fs p) q = readFileFS fs q := by
  induction fs with
  | nil => rfl
  | cons e rest ih =>
    by_cases he : e.1 = p
    · have hne : ¬ e.1 = q := by
        intro hq
        exact h (hq ▸ he ▸ rfl)
      simp [unlinkSync, he, readFileFS, hne, ih, Ne.symm h]
    · by_cases hq : e.1 = q
      · simp [unlinkSync, he, readFileFS, hq, h, Ne.symm h]
      · simp [unlinkSync, he, readFileFS, hq, ih]

theorem readFileFS_cleanupLocal_ne (fs : FS) (p q : FPath) (h : q ≠ p) :
    readFileFS (cleanupLocal fs p) q = readFileFS fs q := by
  unfold cleanupLocal
  by_cases he : existsSync fs p
  · simp [he, readFileFS_unlinkSync_ne fs p q h]
  · simp [he]

theorem readFileFS_writeFileFS_same (fs : FS) (p : FPath) (b : List Nat) :
    readFileFS (writeFileFS fs p b) p = some b := by
  simp [writeFileFS, readFileFS]

theorem cleanupLocal_of_not_exists (fs : FS) (p : FPath)
    (h : existsSync fs p = false) : cleanupLocal fs p = fs := by
  simp [cleanupLocal, h]

/-- Running `cleanupLocal` a second time on the same path is a no-op. -/
theorem cleanupLocal_idem (fs : FS) (p : FPath) :
    cleanupLocal (cleanupLocal fs p) p = cleanupLocal fs p :=
  cleanupLocal_of_not_exists _ _ (existsSync_cleanupLocal fs p)

/-! ## Helper lemmas: option choice, last element, concatenation -/

theorem optOr_none_right (a : Option String) : optOr a none = a := by
  cases a <;> rfl

theorem optOr_assoc (a b c : Option String) :
    optOr (optOr a b) c = optOr a (optOr b c) := by
  cases a <;> rfl

theorem lastOf_append (l₁ l₂ : List String) :
    lastOf (l₁ ++ l₂) = optOr (lastOf l₂) (lastOf l₁) := by
  induction l₁ with
  | nil => simp [lastOf, optOr_none_right]
  | cons a rest ih => simp [lastOf, ih, optOr_assoc]

theorem concatAll_append (l₁ l₂ : List String) :
    concatAll (l₁ ++ l₂) = concatAll l₁ ++ concatAll l₂ := by
  induction l₁ with
  | nil => simp [concatAll, String.empty_append]
  | cons a rest ih => simp [concatAll, ih, String.append_assoc]

/-! ## Refinement: the accumulator recursion of `extractResponsePayload`
computes the spec-side DFS lists -/

theorem stepObj_eq_spec (ty tx au : Option String) (acc : String × Option String) :
    stepObj ty tx au acc =
      (acc.1 ++ concatAll (if ty = some ("output_text") ∨ ty = some ("text")
          then tx.toList else []),
       optOr (lastOf (if ty = some ("output_audio") ∨ ty = some ("audio")
          then (jstr au).toList else [])) acc.2) := by
  have hne : ¬ ((ty = some ("output_text") ∨ ty = some ("text")) ∧
      (ty = some ("output_audio") ∨ ty = some ("audio"))) := by
    rintro ⟨h1 | h1, h2 | h2⟩ <;> subst h1 <;> simp at h2
  unfold stepObj
  by_cases htxt : ty = some ("output_text") ∨ ty = some ("text")
  · have haud : ¬ (ty = some ("output_audio") ∨ ty = some ("audio")) :=
      fun h => hne ⟨htxt, h⟩
    cases tx with
    | none =>
      simp [jstr, htxt, haud, Option.toList, concatAll, lastOf, optOr,
        String.append_empty]
    | some t =>
      by_cases ht : t = ""
      · subst ht
        simp [jstr, htxt, haud, Option.toList, concatAll, lastOf, optOr,
          String.append_empty]
      · simp [jstr, ht, htxt, haud, Option.toList, concatAll, lastOf, optOr,
          String.append_empty]
  · by_cases haud : ty = some ("output_audio") ∨ ty = some ("audio")
    · cases au with
      | none =>
        simp [jstr, htxt, haud, Option.toList, concatAll, lastOf, optOr,
          String.append_empty]
      | some a =>
        by_cases ha : a = ""
        · subst ha
          simp [jstr, htxt, haud, Option.toList, concatAll, lastOf, optOr,
            String.append_empty]
        · simp [jstr, ha, htxt, haud, Option.toList, concatAll, lastOf, optOr,
            String.append_empty]
    · simp [htxt, haud, concatAll, lastOf, optOr, String.append_empty]

mutual

theorem recurse_eq_spec (n : JNode) (acc : String × Option String) :
    recurse n acc =
      (acc.1 ++ concatAll (specTexts n), optOr (lastOf (specAudios n)) acc.2) := by
  cases n with
  | null => simp [recurse, specTexts, specAudios, concatAll, lastOf, optOr,
      String.append_empty]
  | arr xs =>
    simp only [recurse, specTexts, specAudios]
    exact recurseList_eq_spec xs acc
  | obj ty tx au c =>
    cases c with
    | none =>
      simp only [recurse, specTexts, specAudios]
      exact stepObj_eq_spec ty tx au acc
    | some m =>
      simp only [recurse, specTexts, specAudios]
      rw [recurse_eq_spec m (stepObj ty tx au acc), stepObj_eq_spec ty tx au acc]
      rw [concatAll_append, lastOf_append]
      simp [String.append_assoc, optOr_assoc]

theorem recurseList_eq_spec (l : List JNode) (acc : String × Option String) :
    recurseList l acc =
      (acc.1 ++ concatAll (specTextsList l), optOr (lastOf (specAudiosList l)) acc.2) := by
  cases l with
  | nil => simp [recurseList, specTextsList, specAudiosList, concatAll, lastOf, optOr,
      String.append_empty]
  | cons x xs =>
    simp only [recurseList, specTextsList, specAudiosList]
    rw [recurse_eq_spec x acc, recurseList_eq_spec xs _]
    rw [concatAll_append, lastOf_append]
    simp [String.append_assoc, optOr_assoc]

end

/-- The payload extractor equals its spec-side description: trimmed DFS text
concatenation, and the last audio datum collected. -/
theorem extractResponsePayload_eq_spec (outputs : List JNode) :
    extractResponsePayload outputs =
      (strTrim (concatAll (specTextsList outputs)), lastOf (specAudiosList outputs)) := by
  unfold extractResponsePayload
  rw [recurseList_eq_spec outputs ("", none)]
  simp [String.empty_append, optOr_none_right]

/-! ## Audio data collected by the traversal is never the empty string -/

theorem jstr_ne_empty (o : Option String) (a : String) (h : jstr o = some a) :
    a ≠ "" := by
  cases o with
  | none => simp [jstr] at h
  | some s =>
    by_cases hs : s = ""
    · simp [jstr, hs] at h
    · simp [jstr, hs] at h
      exact h ▸ hs

mutual

theorem specAudios_ne_empty (n : JNode) :
    ∀ a ∈ specAudios n, a ≠ "" := by
  cases n with
  | null => simp [specAudios]
  | arr xs =>
    simp only [specAudios]
    exact specAudiosList_ne_empty xs
  | obj ty tx au c =>
    cases c with
    | none =>
      simp only [specAudios]
      intro a ha
      by_cases h : ty = some ("output_audio") ∨ ty = some ("audio")
      · simp [h] at ha
        cases hj : jstr au with
        | none => simp [hj] at ha
        | some b =>
          simp [hj] at ha
          exact ha ▸ jstr_ne_empty au b hj
      · simp [h] at ha
    | some m =>
      simp only [specAudios]
      intro a ha
      rcases List.mem_append.mp ha with h1 | h2
      · by_cases h : ty = some ("output_audio") ∨ ty = some ("audio")
        · simp [h] at h1
          cases hj : jstr au with
          | none => simp [hj] at h1
          | some b =>
            simp [hj] at h1
            exact h1 ▸ jstr_ne_empty au b hj
        · simp [h] at h1
      · exact specAudios_ne_empty m a h2

theorem specAudiosList_ne_empty (l : List JNode) :
    ∀ a ∈ specAudiosList l, a ≠ "" := by
  cases l with
  | nil => simp [specAudiosList]
  | cons x xs =>
    simp only [specAudiosList]
    intro a ha
    rcases List.mem_append.mp ha with h1 | h2
    · exact specAudios_ne_empty x a h1
    · exact specAudiosList_ne_empty xs a h2

end

theorem lastOf_mem (l : List String) (a : String) (h : lastOf l = some a) :
    a ∈ l := by
  induction l with
  | nil => simp [lastOf] at h
  | cons b rest ih =>
    simp only [lastOf] at h
    cases hr : lastOf rest with
    | none =>
      rw [hr] at h
      simp [optOr] at h
      simp [h]
    | some c =>
      rw [hr] at h
      simp [optOr] at h
      exact List.mem_cons_of_mem b (ih (h ▸ hr))

/-- An audio payload returned by `extractResponsePayload` is a non-empty
base64 string: the traversal only records truthy `audio.data` fields. -/
theorem extract_audio_ne_empty (outputs : List JNode) (a : String)
    (h : (extractResponsePayload outputs).2 = some a) : a ≠ "" := by
  rw [extractResponsePayload_eq_spec] at h
  simp only at h
  exact specAudiosList_ne_empty outputs a (lastOf_mem _ a h)

/-! ## Polling-loop lemmas -/

theorem runErrMsg_ne_timeout (st : String) (m : Option String)
    (h : st ∈ terminalStatuses) : runErrMsg st m ≠ timeoutMsg := by
  simp [terminalStatuses] at h
  unfold runErrMsg timeoutMsg
  rcases h with h | h | h <;> subst h <;> intro hEq <;>
    have h2 := congrArg String.data hEq <;>
    simp [String.data_append] at h2

theorem pollAux_timeout_iff (runs : Nat → String × Option String) :
    ∀ fuel i, i + fuel = maxAttempts →
    ((pollAux runs i fuel).1 = Except.error timeoutMsg ↔
      ∀ j, i ≤ j → j < maxAttempts →
        ¬ ((runs j).1 = "completed" ∨ (runs j).1 ∈ terminalStatuses)) := by
  intro fuel
  induction fuel with
  | zero =>
    intro i hi
    constructor
    · intro _ j hij hj
      exact absurd hj (by omega)
    · intro _
      have hno : ¬ ((runs i).1 = "completed" ∧ i < maxAttempts) := by
        rintro ⟨_, hlt⟩
        omega
      simp [pollAux, hno]
  | succ fuel ih =>
    intro i hi
    have hilt : i < maxAttempts := by omega
    by_cases hc : (runs i).1 = "completed"
    · have hres : (pollAux runs i (fuel + 1)).1 = Except.ok i := by
        simp [pollAux, hc, hilt]
      constructor
      · intro h
        rw [hres] at h
        exact absurd h (by simp)
      · intro hall
        exact absurd (Or.inl hc) (hall i le_rfl hilt)
    · by_cases hterm : (runs i).1 ∈ terminalStatuses
      · have hres : (pollAux runs i (fuel + 1)).1 =
            Except.error (runErrMsg (runs i).1 (runs i).2) := by
          simp [pollAux, hc, hilt, hterm]
        constructor
        · intro h
          rw [hres] at h
          have hne := runErrMsg_ne_timeout (runs i).1 (runs i).2 hterm
          simp only [Except.error.injEq] at h
          exact absurd h hne
        · intro hall
          exact absurd (Or.inr hterm) (hall i le_rfl hilt)
      · have hres : (pollAux runs i (fuel + 1)).1 = (pollAux runs (i + 1) fuel).1 := by
          simp [pollAux, hc, hilt, hterm]
        rw [hres, ih (i + 1) (by omega)]
        constructor
        · intro hall j hij hj
          rcases Nat.eq_or_lt_of_le hij with heq | hlt
          · subst heq
            exact fun h => h.elim hc hterm
          · exact hall j hlt hj
        · intro hall j hij hj
          exact hall j (by omega) hj

theorem pollAux_ok (runs : Nat → String × Option String) :
    ∀ fuel i j, i + fuel = maxAttempts →
    (pollAux runs i fuel).1 = Except.ok j →
    i ≤ j ∧ j < maxAttempts ∧ (runs j).1 = "completed" ∧
      (pollAux runs i fuel).2 = pollIntervalMs * (j - i) := by
  intro fuel
  induction fuel with
  | zero =>
    intro i j hi h
    have hno : ¬ ((runs i).1 = "completed" ∧ i < maxAttempts) := by
      rintro ⟨_, hlt⟩
      omega
    simp [pollAux, hno] at h
  | succ fuel ih =>
    intro i j hi h
    have hilt : i < maxAttempts := by omega
    by_cases hc : (runs i).1 = "completed"
    · have hres : pollAux runs i (fuel + 1) = (Except.ok i, 0) := by
        simp [pollAux, hc, hilt]
      rw [hres] at h
      simp only [Except.ok.injEq] at h
      subst h
      exact ⟨le_rfl, hilt, hc, by rw [hres]; simp⟩
    · by_cases hterm : (runs i).1 ∈ terminalStatuses
      · have hres : (pollAux runs i (fuel + 1)).1 =
            Except.error (runErrMsg (runs i).1 (runs i).2) := by
          simp [pollAux, hc, hilt, hterm]
        rw [hres] at h
        exact absurd h (by simp)
      · have hres : pollAux runs i (fuel + 1) =
            ((pollAux runs (i + 1) fuel).1, (pollAux runs (i + 1) fuel).2 + pollIntervalMs) := by
          simp [pollAux, hc, hilt, hterm]
        rw [hres] at h
        simp only at h
        obtain ⟨hle, hlt, hcomp, hslept⟩ := ih (i + 1) j (by omega) h
        refine ⟨by omega, hlt, hcomp, ?_⟩
        rw [hres]
        simp only [hslept, pollIntervalMs]
        omega

theorem pollAux_terminal (runs : Nat → String × Option String) :
    ∀ fuel i k, i + fuel = maxAttempts → i ≤ k → k < maxAttempts →
    (∀ j, i ≤ j → j < k → ¬ ((runs j).1 = "completed" ∨ (runs j).1 ∈ terminalStatuses)) →
    (runs k).1 ∈ terminalStatuses →
    (pollAux runs i fuel).1 = Except.error (runErrMsg (runs k).1 (runs k).2) := by
  intro fuel
  induction fuel with
  | zero =>
    intro i k hi hik hk _ _
    exact absurd hk (by omega)
  | succ fuel ih =>
    intro i k hi hik hk hpre hterm
    rcases Nat.eq_or_lt_of_le hik with heq | hlt
    · subst heq
      have hc : ¬ (runs i).1 = "completed" := by
        intro h
        rw [h] at hterm
        simp [terminalStatuses] at hterm
      simp [pollAux, hc, hterm]
    · have hc : ¬ (runs i).1 = "completed" := fun h => hpre i le_rfl hlt (Or.inl h)
      have ht : ¬ (runs i).1 ∈ terminalStatuses := fun h => hpre i le_rfl hlt (Or.inr h)
      have hres : (pollAux runs i (fuel + 1)).1 = (pollAux runs (i + 1) fuel).1 := by
        simp [pollAux, hc, ht]
      rw [hres]
      exact ih (i + 1) k (by omega) hlt hk (fun j h1j h2j => hpre j (by omega) h2j) hterm

/-! ## Remaining helper lemmas for the handler theorems -/

theorem downloads_ne_uploads (n t : String) :
    ((("downloads"), n) : FPath) ≠ ((("uploads"), t) : FPath) := by
  intro h
  have h1 : ("downloads" : String) = "uploads" := congrArg Prod.fst h
  simp at h1

/-! ## Claim theorems -/

/-- C9: for every response-output tree, `extractResponsePayload` returns the
pair of (a) the trimmed concatenation, in depth-first traversal order —
recursing into arrays and into `content` fields — of the `text` of every node
of type `output_text` or `text`, and (b) the `audio.data` of the last
audio-typed node visited that has such (non-empty) data, or `none` when there
is none; and on the empty/missing input it returns `("", none)`. -/
theorem C9_extract_payload_spec :
    (∀ outputs : List JNode,
      extractResponsePayload outputs =
        (strTrim (concatAll (specTextsList outputs)), lastOf (specAudiosList outputs))) ∧
    extractResponsePayload [] = (("", none) : String × Option String) := by
  constructor
  · exact extractResponsePayload_eq_spec
  · rfl

/-- C8: running `cleanupLocal` when the temp file is already gone neither
throws (the model function is total, mirroring the guarding `existsSync`
check and the log-only catch) nor changes anything — it is the identity on
the filesystem, so the response is unaffected — and running it twice equals
running it once. -/
theorem C8_cleanupLocal_idempotent (fs : FS) (p : FPath) :
    cleanupLocal (cleanupLocal fs p) p = cleanupLocal fs p ∧
    (existsSync fs p = false → cleanupLocal fs p = fs) :=
  ⟨cleanupLocal_idem fs p, cleanupLocal_of_not_exists fs p⟩

/-- Witness for C8 at a concrete filesystem without the target file. -/
theorem C8_cleanupLocal_idempotent_witness :
    cleanupLocal fsOne (("uploads"), ("gone.pdf")) = fsOne :=
  (C8_cleanupLocal_idempotent fsOne (("uploads"), ("gone.pdf"))).2 (by decide)

/-- C2: in all three handler variants, a request without a `file` field gets
status 400 with an `error` body, the filesystem is untouched, and no remote
resource is created or deleted — no processing happens. -/
theorem C2_no_file_field_400 :
    ∀ (rw : RWorld) (aw : AWorld) (tw : TWorld) (uuid : String) (fs : FS),
      processResponses rw none uuid fs =
        ⟨400, Body.err ("No file uploaded"), fs, false, false, false, false, false, false⟩ ∧
      processAssistants aw none uuid fs =
        ⟨400, Body.err ("No file uploaded"), fs, false, false, false, false, false, false⟩ ∧
      processTts tw none uuid fs =
        ⟨400, Body.err ("No file uploaded"), fs, false, false, false, false, false, false⟩ :=
  fun _ _ _ _ _ => ⟨rfl, rfl, rfl⟩

/-- C10: `extractText` lowercases the extension before dispatch, so branch
selection is case-insensitive — any two paths with the same lowercased
extension select the same decoder branch — and the unsupported-type rejection
is likewise case-insensitive: for an unsupported lowercased extension both
paths produce the identical error result (whose message carries the
lowercased extension) with no decoder invoked. -/
theorem C10_case_insensitive_dispatch (d : Decoders) (p q : String)
    (h : extOf p = extOf q) :
    (extractText d p).2 = (extractText d q).2 ∧
    (extOf p ∉ supportedExts → extractText d p = extractText d q) := by
  constructor
  · unfold extractText
    rw [h]
    split_ifs <;> rfl
  · intro hn
    simp only [supportedExts, List.mem_cons, List.mem_singleton] at hn
    push_neg at hn
    obtain ⟨h1, h2, h3, h4, h5, h6, h7⟩ := hn
    unfold extractText
    rw [h]
    rw [h] at h1 h2 h3 h4 h5 h6 h7
    simp [h1, h2, h3, h4, h5, h6, h7]

/-- Witness for C10: a path with an uppercased `.PDF` extension selects the
same branch as its lowercased twin. -/
theorem C10_case_insensitive_dispatch_witness :
    extOf ("a.PDF") = extOf ("a.pdf") ∧
    (extractText dStub ("a.PDF")).2 = (extractText dStub ("a.pdf")).2 :=
  ⟨by decide, (C10_case_insensitive_dispatch dStub ("a.PDF") ("a.pdf") (by decide)).1⟩

/-- C6 counterexample: with a plain-text decoder stub that succeeds with the
empty string, `extractText` on a `.txt` path returns the empty string — it
neither returns non-empty text nor raises an error, so the claim's
"non-empty extracted text or explicit extraction error" disjunction fails. -/
theorem C6_counterexample :
    ¬ ((∃ s, (extractText dEmptyTxt ("a.txt")).1 = Except.ok s ∧ s ≠ "") ∨
       (∃ e, (extractText dEmptyTxt ("a.txt")).1 = Except.error e)) := by
  have hv : (extractText dEmptyTxt ("a.txt")).1 = Except.ok ("") := by rfl
  rintro (⟨s, hs, hne⟩ | ⟨e, he⟩)
  · rw [hv] at hs
    simp only [Except.ok.injEq] at hs
    exact hne hs.symm
  · rw [hv] at he
    exact absurd he (by simp)

/-- C6 (amended): for every supported (lowercased) extension, `extractText`
invokes exactly one decoder and returns exactly that decoder's text — which
is empty when the decoder's is — or propagates the decoder's error as the
extraction error; for every other extension it raises the explicit
`Unsupported file type` error without invoking any decoder. -/
theorem C6_extractText_dispatch (d : Decoders) (p : String) :
    (extOf p ∈ supportedExts →
      (extractText d p).2.length = 1 ∧
      ((∃ s, (extractText d p).1 = Except.ok s ∧ decoderOkText d p s) ∨
       (∃ e, (extractText d p).1 = Except.error e ∧ decoderRaisedError d p e))) ∧
    (extOf p ∉ supportedExts →
      extractText d p = (Except.error ("Unsupported file type: " ++ extOf p), [])) := by
  constructor
  · intro hmem
    simp [supportedExts] at hmem
    rcases hmem with h | h | h | h | h | h | h
    · constructor
      · simp [extractText, h]
      · cases hr : d.pdf p with
        | ok s =>
          exact Or.inl ⟨s, by simp [extractText, h, hr], Or.inl hr⟩
        | error e =>
          exact Or.inr ⟨e, by simp [extractText, h, hr], Or.inl hr⟩
    · constructor
      · simp [extractText, h]
      · cases hr : d.docx p with
        | ok s =>
          exact Or.inl ⟨s, by simp [extractText, h, hr], Or.inr (Or.inl hr)⟩
        | error e =>
          exact Or.inr ⟨e, by simp [extractText, h, hr], Or.inr (Or.inl hr)⟩
    · constructor
      · simp [extractText, h]
      · cases hr : d.xlsxRead p with
        | ok sheets =>
          refine Or.inl ⟨xlsxText sheets, by simp [extractText, h, hr], ?_⟩
          exact Or.inr (Or.inr (Or.inl ⟨sheets, hr, rfl⟩))
        | error e =>
          refine Or.inr ⟨e, by simp [extractText, h, hr], ?_⟩
          exact Or.inr (Or.inr (Or.inl hr))
    · constructor
      · simp [extractText, h]
      · cases hr : d.xlsxRead p with
        | ok sheets =>
          refine Or.inl ⟨xlsxText sheets, by simp [extractText, h, hr], ?_⟩
          exact Or.inr (Or.inr (Or.inl ⟨sheets, hr, rfl⟩))
        | error e =>
          refine Or.inr ⟨e, by simp [extractText, h, hr], ?_⟩
          exact Or.inr (Or.inr (Or.inl hr))
    · constructor
      · simp [extractText, h]
      · cases hr : d.office p with
        | ok s =>
          exact Or.inl ⟨s, by simp [extractText, h, hr], Or.inr (Or.inr (Or.inr (Or.inl hr)))⟩
        | error e =>
          exact Or.inr ⟨e, by simp [extractText, h, hr], Or.inr (Or.inr (Or.inr (Or.inl hr)))⟩
    · constructor
      · simp [extractText, h]
      · cases hr : d.office p with
        | ok s =>
          exact Or.inl ⟨s, by simp [extractText, h, hr], Or.inr (Or.inr (Or.inr (Or.inl hr)))⟩
        | error e =>
          exact Or.inr ⟨e, by simp [extractText, h, hr], Or.inr (Or.inr (Or.inr (Or.inl hr)))⟩
    · constructor
      · simp [extractText, h]
      · cases hr : d.readTxtFile p with
        | ok s =>
          exact Or.inl ⟨s, by simp [extractText, h, hr],
            Or.inr (Or.inr (Or.inr (Or.inr hr)))⟩
        | error e =>
          exact Or.inr ⟨e, by simp [extractText, h, hr],
            Or.inr (Or.inr (Or.inr (Or.inr hr)))⟩
  · intro hn
    simp only [supportedExts, List.mem_cons, List.mem_singleton] at hn
    push_neg at hn
    obtain ⟨h1, h2, h3, h4, h5, h6, h7⟩ := hn
    simp [extractText, h1, h2, h3, h4, h5, h6, h7]

/-- Witness for C6 (amended) at a `.png` path: the unsupported-type error is
raised with the lowercased extension and an empty decoder trace. -/
theorem C6_extractText_dispatch_witness :
    extractText dStub ("a.png") =
      (Except.error ("Unsupported file type: .png"), []) :=
  (C6_extractText_dispatch dStub ("a.png")).2 (by decide)

/-- C7 counterexample: no length bound holds of the text `extractText`
returns — for any candidate cap `L` a decoder stub yields a longer text that
is passed through unreduced, so the extracted content is not capped before
the generation step. -/
theorem C7_counterexample :
    ¬ (∃ L : Nat, ∀ (d : Decoders) (p s : String),
        (extractText d p).1 = Except.ok s → s.length ≤ L) := by
  rintro ⟨L, hL⟩
  have h := hL
      ⟨fun _ => Except.error ("e"), fun _ => Except.error ("e"),
       fun _ => Except.error ("e"), fun _ => Except.error ("e"),
       fun _ => Except.ok (String.mk (List.replicate (L + 1) ('a')))⟩
      ("a.txt") (String.mk (List.replicate (L + 1) ('a'))) rfl
  simp only [String.length_mk, List.length_replicate] at h
  omega

/-- C7 (amended): the only size control in the pipeline is the upload
receiver's 10 MB multer `fileSize` limit; the extracted/forwarded content
itself is not capped — `extractText` passes texts of unbounded length
through to the caller. -/
theorem C7_no_content_cap :
    (∀ sz : Nat, multerAccepts sz = true → sz ≤ 10 * 1024 * 1024) ∧
    (∀ L : Nat, ∃ (d : Decoders) (p s : String),
      (extractText d p).1 = Except.ok s ∧ L < s.length) := by
  constructor
  · intro sz h
    simpa [multerAccepts, multerFileSizeLimitBytes] using h
  · intro L
    refine ⟨⟨fun _ => Except.error ("e"), fun _ => Except.error ("e"),
        fun _ => Except.error ("e"), fun _ => Except.error ("e"),
        fun _ => Except.ok (String.mk (List.replicate (L + 1) ('a')))⟩,
      ("a.txt"), String.mk (List.replicate (L + 1) ('a')), rfl, ?_⟩
    simp [String.length_mk, List.length_replicate]

/-- Witness for C7 at concrete sizes: an accepted 5-byte upload is within the
10 MB limit, and a text longer than 3 characters passes through uncapped. -/
theorem C7_no_content_cap_witness :
    (5 ≤ 10 * 1024 * 1024 ∧
      ∃ (d : Decoders) (p s : String),
        (extractText d p).1 = Except.ok s ∧ 3 < s.length) :=
  ⟨C7_no_content_cap.1 5 (by decide), C7_no_content_cap.2 3⟩

/-- C5 counterexample: when every retrieve reports `failed`, the status never
reaches `completed` within the attempt bound, yet the loop raises the
terminal-status error and not the timeout error — refuting the claim's "if
and only if the status never reaches completed within the bound". -/
theorem C5_counterexample :
    (∀ j, j < 120 → (runsFailed j).1 ≠ "completed") ∧
    (pollRun runsFailed).1 ≠ Except.error timeoutMsg := by
  constructor
  · intro j _
    simp [runsFailed]
  · intro h
    have h2 : (Except.error ("Assistant run failed: Unknown error") : Except String Nat) =
        Except.error timeoutMsg := h
    simp only [Except.error.injEq, timeoutMsg] at h2
    have h3 := congrArg String.data h2
    simp at h3

/-- C5 (amended): the polling loop retrieves the status at most 121 times
(the initial retrieve plus the fixed bound of 120 in-loop attempts), sleeping
the fixed 1000 ms interval once per continued iteration; a poll within the
bound that reports terminal status `failed`, `cancelled` or `expired` before
any `completed` raises a hard error naming that status, distinct from the
timeout error; and the timeout error is raised if and only if none of the
first 120 polled statuses is `completed` or terminal.  (The original claim's
"timeout iff never completed within the bound" fails when a terminal status
occurs: the terminal error is raised instead.) -/
theorem C5_poll_bound_terminal_timeout (runs : Nat → String × Option String) :
    maxAttempts = 120 ∧ pollIntervalMs = 1000 ∧
    (∀ j, (pollRun runs).1 = Except.ok j →
      j < 120 ∧ (runs j).1 = "completed" ∧ (pollRun runs).2 = 1000 * j) ∧
    (∀ k, k < 120 →
      (∀ j, j < k → ¬ ((runs j).1 = "completed" ∨ (runs j).1 ∈ terminalStatuses)) →
      (runs k).1 ∈ terminalStatuses →
      (pollRun runs).1 = Except.error (runErrMsg (runs k).1 (runs k).2) ∧
        runErrMsg (runs k).1 (runs k).2 ≠ timeoutMsg) ∧
    ((pollRun runs).1 = Except.error timeoutMsg ↔
      ∀ j, j < 120 → ¬ ((runs j).1 = "completed" ∨ (runs j).1 ∈ terminalStatuses)) := by
  refine ⟨rfl, rfl, ?_, ?_, ?_⟩
  · intro j h
    obtain ⟨_, hlt, hcomp, hslept⟩ := pollAux_ok runs maxAttempts 0 j (by omega) h
    exact ⟨by simpa [maxAttempts] using hlt, hcomp, by simpa [pollIntervalMs] using hslept⟩
  · intro k hk hpre hterm
    refine ⟨?_, runErrMsg_ne_timeout (runs k).1 (runs k).2 hterm⟩
    exact pollAux_terminal runs maxAttempts 0 k (by omega) (by omega)
      (by simpa [maxAttempts] using hk) (fun j _ h2 => hpre j h2) hterm
  · have h := pollAux_timeout_iff runs maxAttempts 0 (by omega)
    rw [show (maxAttempts : Nat) = 120 from rfl] at h
    constructor
    · intro ht j hj
      exact (h.mp ht) j (by omega) hj
    · intro hall
      exact h.mpr (fun j _ hj => hall j hj)

/-- Witness for C5 with a run that never leaves `in_progress`: the loop
raises exactly the timeout error. -/
theorem C5_poll_bound_terminal_timeout_witness :
    (pollRun runsStuck).1 = Except.error timeoutMsg :=
  (C5_poll_bound_terminal_timeout runsStuck).2.2.2.2.mpr (by decide)

/-- C3 counterexample: in the Responses+TTS variant a fully successful
request creates the remote file handle but never attempts to delete it (the
`openai.files.del` call is commented out), so "deletes every remote resource
created during that request" fails on the success outcome. -/
theorem C3_counterexample :
    (processTts tWorldLeak (some ("doc.pdf")) ("u") fsOne).status = 200 ∧
    (processTts tWorldLeak (some ("doc.pdf")) ("u") fsOne).fileCreated = true ∧
    (processTts tWorldLeak (some ("doc.pdf")) ("u") fsOne).fileDelAttempted = false :=
  ⟨rfl, rfl, rfl⟩

/-- C3 (amended): on both outcomes every variant deletes the local temporary
upload; the assistants variant best-effort-deletes every remote resource it
created (file handle, assistant, thread) and the Responses variant its file
handle, with deletion failures ignored — the entire outcome is independent of
whether the deletions succeed; but the Responses+TTS variant never deletes
the remote file handle it created. -/
theorem C3_cleanup_both_outcomes (aw : AWorld) (rw : RWorld) (tw : TWorld)
    (t uuid : String) (fs : FS) :
    (existsSync (processAssistants aw (some t) uuid fs).fs (("uploads"), t) = false ∧
     ((processAssistants aw (some t) uuid fs).fileCreated = true →
       (processAssistants aw (some t) uuid fs).fileDelAttempted = true) ∧
     ((processAssistants aw (some t) uuid fs).assistantCreated = true →
       (processAssistants aw (some t) uuid fs).assistantDelAttempted = true) ∧
     ((processAssistants aw (some t) uuid fs).threadCreated = true →
       (processAssistants aw (some t) uuid fs).threadDelAttempted = true)) ∧
    (∀ b1 b2 b3,
      processAssistants
        { aw with assistantsDelOk := b1, threadsDelOk := b2, filesDelOk := b3 }
        (some t) uuid fs = processAssistants aw (some t) uuid fs) ∧
    (∀ b, processResponses { rw with filesDelOk := b } (some t) uuid fs =
        processResponses rw (some t) uuid fs) ∧
    (existsSync (processResponses rw (some t) uuid fs).fs (("uploads"), t) = false ∧
     ((processResponses rw (some t) uuid fs).fileCreated = true →
       (processResponses rw (some t) uuid fs).fileDelAttempted = true)) ∧
    (existsSync (processTts tw (some t) uuid fs).fs (("uploads"), t) = false ∧
     (processTts tw (some t) uuid fs).fileDelAttempted = false) := by
  refine ⟨?_, ?_, ?_, ?_, ?_⟩
  · simp only [processAssistants]
    repeat' split
    all_goals simp [existsSync_cleanupLocal]
  · intro b1 b2 b3
    rfl
  · intro b
    rfl
  · simp only [processResponses]
    repeat' split
    all_goals simp [existsSync_cleanupLocal]
  · simp only [processTts]
    repeat' split
    all_goals simp [existsSync_cleanupLocal]

/-- Witness for C3: a fully successful assistants-variant request ends with
the temp upload gone and the remote file deletion attempted. -/
theorem C3_cleanup_both_outcomes_witness :
    existsSync (processAssistants aWorldOk (some ("doc.pdf")) ("u") fsOne).fs
      (("uploads"), ("doc.pdf")) = false ∧
    (processAssistants aWorldOk (some ("doc.pdf")) ("u") fsOne).fileDelAttempted = true :=
  ⟨(C3_cleanup_both_outcomes aWorldOk rWorldHappy tWorldLeak ("doc.pdf") ("u") fsOne).1.1,
   (C3_cleanup_both_outcomes aWorldOk rWorldHappy tWorldLeak ("doc.pdf") ("u") fsOne).1.2.1
     (by decide)⟩

/-- C4: when generation yields empty script text (any variant) or an output
without audio (Responses variant), the handler responds 500 with an error
body, the temp upload no longer exists afterwards, and nothing under
`downloads/` is written. -/
theorem C4_empty_script_or_audio (rw : RWorld) (tw : TWorld)
    (t uuid fid : String) (fs : FS) :
    (existsSync fs (("uploads"), t) = true →
      rw.filesCreate = Except.ok fid →
      ∀ outs, rw.responsesCreate = Except.ok outs →
      ((extractResponsePayload outs).1 = "" ∨ (extractResponsePayload outs).2 = none) →
      (processResponses rw (some t) uuid fs).status = 500 ∧
      (∃ m, (processResponses rw (some t) uuid fs).body = Body.err m) ∧
      existsSync (processResponses rw (some t) uuid fs).fs (("uploads"), t) = false ∧
      (∀ n, readFileFS (processResponses rw (some t) uuid fs).fs (("downloads"), n) =
        readFileFS fs (("downloads"), n))) ∧
    (existsSync fs (("uploads"), t) = true →
      tw.filesCreate = Except.ok fid →
      (tw.responsesOutputText = Except.ok none ∨
        tw.responsesOutputText = Except.ok (some (""))) →
      (processTts tw (some t) uuid fs).status = 500 ∧
      (∃ m, (processTts tw (some t) uuid fs).body = Body.err m) ∧
      existsSync (processTts tw (some t) uuid fs).fs (("uploads"), t) = false ∧
      (∀ n, readFileFS (processTts tw (some t) uuid fs).fs (("downloads"), n) =
        readFileFS fs (("downloads"), n))) := by
  constructor
  · intro he hfc outs hrc hbad
    have hres : ∃ m, processResponses rw (some t) uuid fs =
        ⟨500, Body.err m, cleanupLocal fs (("uploads"), t),
          true, true, false, false, false, false⟩ := by
      by_cases hs : (extractResponsePayload outs).1 = ""
      · refine ⟨orInternalError ("OpenAI did not return a Hebrew script."), ?_⟩
        simp [processResponses, he, hfc, hrc, hs]
      · rcases hbad with hs' | ha
        · exact absurd hs' hs
        · refine ⟨orInternalError ("OpenAI did not return audio data."), ?_⟩
          simp [processResponses, he, hfc, hrc, hs, ha]
    obtain ⟨m, hres⟩ := hres
    refine ⟨by rw [hres], ⟨m, by rw [hres]⟩,
      by rw [hres]; exact existsSync_cleanupLocal fs _, ?_⟩
    intro n
    rw [hres]
    exact readFileFS_cleanupLocal_ne fs _ _ (downloads_ne_uploads n t)
  · intro he hfc hso
    have hres : processTts tw (some t) uuid fs =
        ⟨500, Body.err (orInternalError ("OpenAI did not return a script from Responses API.")),
          cleanupLocal fs (("uploads"), t), true, false, false, false, false, false⟩ := by
      rcases hso with hso | hso
      · simp [processTts, he, hfc, hso]
      · simp [processTts, he, hfc, hso]
    refine ⟨by rw [hres], ⟨_, by rw [hres]⟩,
      by rw [hres]; exact existsSync_cleanupLocal fs _, ?_⟩
    intro n
    rw [hres]
    exact readFileFS_cleanupLocal_ne fs _ _ (downloads_ne_uploads n t)

/-- Witness for C4 with a generation call returning an output carrying no
text parts: the concrete request gets a 500 and the temp upload is gone. -/
theorem C4_empty_script_or_audio_witness :
    (processResponses rWorldEmptyScript (some ("doc.pdf")) ("u") fsOne).status = 500 ∧
    existsSync (processResponses rWorldEmptyScript (some ("doc.pdf")) ("u") fsOne).fs
      (("uploads"), ("doc.pdf")) = false :=
  ⟨((C4_empty_script_or_audio rWorldEmptyScript tWorldEmptyScript ("doc.pdf") ("u")
      ("file-id") fsOne).1 (by decide) rfl [] rfl (Or.inl rfl)).1,
   ((C4_empty_script_or_audio rWorldEmptyScript tWorldEmptyScript ("doc.pdf") ("u")
      ("file-id") fsOne).1 (by decide) rfl [] rfl (Or.inl rfl)).2.2.1⟩

/-- C1: in the Responses variant, when the upload is stored, the upstream
call succeeds, extraction yields a non-empty script `S` and an audio payload,
the handler responds 200 with body `{ success: true, downloadUrl, script }`
where the script is `S` and the download URL names
`/downloads/<uuid>.mp3` — and the file persisted under `downloads/` at that
generated name holds exactly the synthesized audio bytes. -/
theorem C1_happy_path_responses (rw : RWorld) (t uuid fid S a64 : String)
    (outs : List JNode) (fs : FS)
    (h1 : existsSync fs (("uploads"), t) = true)
    (h2 : rw.filesCreate = Except.ok fid)
    (h3 : rw.responsesCreate = Except.ok outs)
    (h4 : extractResponsePayload outs = (S, some a64))
    (h5 : S ≠ "") :
    (processResponses rw (some t) uuid fs).status = 200 ∧
    (processResponses rw (some t) uuid fs).body =
      Body.ok ("/downloads/" ++ (uuid ++ ".mp3")) S ∧
    readFileFS (processResponses rw (some t) uuid fs).fs
      (("downloads"), uuid ++ ".mp3") = some (rw.decode a64) := by
  have ha : a64 ≠ "" := extract_audio_ne_empty outs a64 (by rw [h4])
  have hs1 : (extractResponsePayload outs).1 = S := by rw [h4]
  have hs2 : (extractResponsePayload outs).2 = some a64 := by rw [h4]
  have hres : processResponses rw (some t) uuid fs =
      ⟨200, Body.ok ("/downloads/" ++ (uuid ++ ".mp3")) S,
        cleanupLocal (writeFileFS fs (("downloads"), uuid ++ ".mp3") (rw.decode a64))
          (("uploads"), t),
        true, true, false, false, false, false⟩ := by
    simp [processResponses, h1, h2, h3, hs1, hs2, h5, ha]
  rw [hres]
  refine ⟨rfl, rfl, ?_⟩
  rw [readFileFS_cleanupLocal_ne _ _ _ (downloads_ne_uploads (uuid ++ ".mp3") t)]
  exact readFileFS_writeFileFS_same fs _ _

/-- Witness for C1 on a concrete happy-path request: script `שלום עולם`,
audio decoded to the fixed byte buffer, persisted under the generated name. -/
theorem C1_happy_path_responses_witness :
    (processResponses rWorldHappy (some ("doc.pdf")) ("u") fsOne).status = 200 ∧
    (processResponses rWorldHappy (some ("doc.pdf")) ("u") fsOne).body =
      Body.ok ("/downloads/" ++ (("u") ++ ".mp3")) ("שלום עולם") ∧
    readFileFS (processResponses rWorldHappy (some ("doc.pdf")) ("u") fsOne).fs
      (("downloads"), ("u") ++ ".mp3") = some (rWorldHappy.decode ("QUJD")) :=
  C1_happy_path_responses rWorldHappy ("doc.pdf") ("u") ("file-id") ("שלום עולם")
    ("QUJD") outsHappy fsOne (by decide) rfl rfl (by decide) (by decide)
